import Mathlib

/-!
Verification of the battleforge Showdown battle-log analysis core.

The data model (`BattleSummary`, `Player`, `Turn`, `Action`, `Stats`,
`KeyMoment`) and the parse operation are embedded below; the TCG Live
HTTP handler is embedded from `backend/internal/httpapi/tcglive_handlers.go`.
-/

set_option maxHeartbeats 1000000

namespace Battleforge

/-! ## Basic string utilities (structural, kernel-evaluable) -/

/-- Splits a character list on a separator character.  Mirrors
`strings.Split`: `splitOnChar '|' "a|b"` gives `["a", "b"]`, and the empty
list yields `[[]]`. -/
def splitOnChar (c : Char) : List Char → List (List Char)
  | [] => [[]]
  | x :: xs =>
    let r := splitOnChar c xs
    if x = c then [] :: r
    else
      match r with
      | [] => [[x]]
      | y :: ys => (x :: y) :: ys

/-- Whitespace test used when trimming a protocol line. -/
def isWS (c : Char) : Bool := c = ' ' || c = '\t' || c = '\r'

/-- Trims leading and trailing whitespace from a character list
(mirrors `strings.TrimSpace` on the characters we care about). -/
def trimChars (cs : List Char) : List Char :=
  ((cs.dropWhile isWS).reverse.dropWhile isWS).reverse

/-- Parses a decimal natural number from a character list
(mirrors `strconv.Atoi` on non-negative input). -/
def natOfChars (cs : List Char) : Option Nat :=
  if cs.isEmpty then none
  else if cs.all Char.isDigit then
    some (cs.foldl (fun a c => a * 10 + (c.toNat - 48)) 0)
  else none

/-! ## Line tokenizer

Modelled from the spec: `parser.go` is absent from the source tree (only
its tests are present), so the Line Tokenizer of spec section 4.1 is
modelled here.  Raw text is split into lines; a line is kept only when it
is non-empty after trimming and begins with the `|` delimiter, in which
case it is split on `|` and the leading empty field is discarded. -/

/-- The raw lines of the input text. -/
def linesOf (s : String) : List (List Char) :=
  splitOnChar '\n' s.data

/-- Tokenizes one raw line into its pipe-delimited fields, or `none` when
the line carries no protocol meaning (empty after trimming, or not
delimiter-prefixed). -/
def fieldsOfLine (cs : List Char) : Option (List String) :=
  match trimChars cs with
  | [] => none
  | '|' :: rest => some ((splitOnChar '|' rest).map (fun f => String.mk f))
  | _ => none

/-- The tokenized event stream of the whole input. -/
def tokenize (s : String) : List (List String) :=
  (linesOf s).filterMap fieldsOfLine

/-! ## Data model (spec section 3, field names as in the Go tests) -/

/-- A move reference: deterministic identifier plus display name. -/
structure Move where
  ID : String
  Name : String
  deriving DecidableEq, Repr

/-- One action inside a turn.  `Player` is the acting player-slot
designator, `ActionType` the free-text tag; a move action carries a
`Move` reference and a switch action the combatant switched in. -/
structure Action where
  Player : String
  ActionType : String
  Move : Option Battleforge.Move
  SwitchTo : String
  deriving DecidableEq, Repr

/-- One turn: 1-based number and its ordered actions. -/
structure Turn where
  TurnNumber : Nat
  Actions : List Action
  deriving DecidableEq, Repr

/-- A player record: display name and count of own fainted combatants. -/
structure Player where
  Name : String
  Losses : Nat
  deriving DecidableEq, Repr

/-- A significance-tagged notable event.  (The Go field `Type` is named
`MomentType` here because `Type` is reserved in Lean.) -/
structure KeyMoment where
  TurnNumber : Nat
  MomentType : String
  Description : String
  Significance : String
  deriving DecidableEq, Repr

/-- Aggregate statistics.  The move-frequency map is an association list
from move identifier to usage count. -/
structure Stats where
  TotalTurns : Nat
  MoveFrequency : List (String × Nat)
  SwitchesCount : Nat
  SuperEffectiveMoves : Nat
  NotVeryEffectiveMoves : Nat
  CriticalHits : Nat
  Player1DamageDealt : ℚ
  Player1DamageTaken : ℚ
  Player1HealingDone : ℚ
  Player2DamageDealt : ℚ
  Player2DamageTaken : ℚ
  Player2HealingDone : ℚ
  AvgDamagePerTurn : ℚ
  AvgHealPerTurn : ℚ
  deriving DecidableEq, Repr

/-- The root summary value returned by a parse invocation. -/
structure BattleSummary where
  ID : String
  Format : String
  Player1 : Player
  Player2 : Player
  Winner : String
  Turns : List Turn
  Stats : Stats
  KeyMoments : List KeyMoment
  deriving DecidableEq, Repr

/-! ## Battle state tracker

Modelled from the spec: the request-scoped mutable state of spec
section 2 (active-combatant health per slot, running turn counter,
per-player loss counters, move-usage tally, the in-progress turn and the
pre-turn-1 action buffer). -/

structure ParseState where
  format : String
  p1Name : String
  p2Name : String
  p1Losses : Nat
  p2Losses : Nat
  winner : String
  turns : List Turn
  totalTurnsCounter : Nat
  currentTurn : Nat
  currentActions : List Action
  keyMoments : List KeyMoment
  moveFrequency : List (String × Nat)
  switchesCount : Nat
  superEffectiveMoves : Nat
  notVeryEffectiveMoves : Nat
  criticalHits : Nat
  p1DamageDealt : ℚ
  p1DamageTaken : ℚ
  p1HealingDone : ℚ
  p2DamageDealt : ℚ
  p2DamageTaken : ℚ
  p2HealingDone : ℚ
  hp : List (String × ℚ)
  done : Bool
  deriving DecidableEq, Repr

/-- The fresh state owned by one parse invocation. -/
def initState : ParseState :=
  ⟨"", "", "", 0, 0, "", [], 0, 0, [], [], [], 0, 0, 0, 0, 0, 0, 0, 0, 0, 0, [], false⟩

/-! ## Event dispatcher helpers -/

/-- Maps a slot token such as `p1a: Pikachu` to the fixed player
designator, falling back to the raw token for undeclared slots. -/
def playerFromSlot (s : String) : String :=
  match s.data with
  | 'p' :: '1' :: _ => "player1"
  | 'p' :: '2' :: _ => "player2"
  | _ => s

/-- The slot key before the `:` separator, e.g. `p1a` of `p1a: Pikachu`. -/
def slotKey (s : String) : String :=
  String.mk (s.data.takeWhile (fun c => c != ':'))

/-- Move identifier derived deterministically from the display name:
lowercased with spaces hyphenated. -/
def toID (name : String) : String :=
  String.mk (name.data.map (fun c => if c = ' ' then '-' else c.toLower))

/-- Strips the throwaway marker characters that prefix join-style name
announcements (e.g. the star glyph in a `|j|☆Player1` line). -/
def stripMarkers (s : String) : String :=
  String.mk (s.data.dropWhile (fun c => c = '☆' || c = '★' || c = '+' || c = ' '))

/-- The species identifier of a switch detail field, e.g. `Pikachu` of
`Pikachu, L50, M`. -/
def speciesOf (detail : String) : String :=
  String.mk (trimChars ((splitOnChar ',' detail.data).headD []))

/-- Parses a remaining-health field such as `65/100` or `0 fnt` into a
health fraction. -/
def parseHP (s : String) : Option ℚ :=
  match splitOnChar '/' ((splitOnChar ' ' s.data).headD []) with
  | [n] => (natOfChars n).map (fun v => (v : ℚ) / 100)
  | [n, d] =>
    match natOfChars n, natOfChars d with
    | some nv, some dv => if dv = 0 then none else some ((nv : ℚ) / (dv : ℚ))
    | _, _ => none
  | _ => none

/-- Increments (or inserts) a move identifier in the usage tally. -/
def bumpFreq (fr : List (String × Nat)) (id : String) : List (String × Nat) :=
  match fr with
  | [] => [(id, 1)]
  | (k, v) :: rest => if k = id then (k, v + 1) :: rest else (k, v) :: bumpFreq rest id

/-- Looks up a move identifier in the tally; absent keys count 0. -/
def lookupFreq (fr : List (String × Nat)) (id : String) : Nat :=
  match fr with
  | [] => 0
  | (k, v) :: rest => if k = id then v else lookupFreq rest id

/-- Records the most recent health fraction for a slot key. -/
def setHP (m : List (String × ℚ)) (k : String) (v : ℚ) : List (String × ℚ) :=
  match m with
  | [] => [(k, v)]
  | (k2, v2) :: rest => if k2 = k then (k, v) :: rest else (k2, v2) :: setHP rest k v

/-- The most recent health fraction of a slot key, defaulting to full. -/
def lookupHP (m : List (String × ℚ)) (k : String) : ℚ :=
  match m with
  | [] => 1
  | (k2, v2) :: rest => if k2 = k then v2 else lookupHP rest k

/-! ## Event handlers

Modelled from the spec: the Event Dispatcher of spec section 4.2 and the
Turn/Action Assembler of section 4.3, for the `ParseShowdownLog` parser
absent from the source tree. -/

/-- Player-declaration line: binds a slot to a display name; a later
duplicate declaration never overwrites an already-bound name. -/
def handlePlayer (st : ParseState) (f : List String) : ParseState :=
  if f.getD 2 "" = "" then st
  else if f.getD 1 "" = "p1" then
    (if st.p1Name = "" then { st with p1Name := f.getD 2 "" } else st)
  else if f.getD 1 "" = "p2" then
    (if st.p2Name = "" then { st with p2Name := f.getD 2 "" } else st)
  else st

/-- Join-announcement line: fallback name binding, marker characters
stripped; the first writer for a slot wins. -/
def handleJoin (st : ParseState) (f : List String) : ParseState :=
  if stripMarkers (f.getD 1 "") = "" then st
  else if st.p1Name = "" then { st with p1Name := stripMarkers (f.getD 1 "") }
  else if st.p2Name = "" then { st with p2Name := stripMarkers (f.getD 1 "") }
  else st

/-- Closes the currently open turn, if any, appending it to the finished
turns and bumping the running turn counter. -/
def closeTurn (st : ParseState) : ParseState :=
  if st.currentTurn = 0 then st
  else
    { st with
      turns := st.turns ++ [⟨st.currentTurn, st.currentActions⟩],
      totalTurnsCounter := st.totalTurnsCounter + 1,
      currentActions := [],
      currentTurn := 0 }

/-- Turn-boundary marker: `NoTurnOpen` moves to `TurnOpen 1` only on a
boundary carrying 1 (keeping the pre-turn-1 action buffer), and
`TurnOpen n` moves to `TurnOpen (n+1)` only on a boundary carrying
exactly `n+1`; other boundaries are ignored. -/
def handleTurn (st : ParseState) (f : List String) : ParseState :=
  match natOfChars (f.getD 1 "").data with
  | none => st
  | some n =>
    if n = st.currentTurn + 1 then
      if st.currentTurn = 0 then { st with currentTurn := n }
      else
        { st with
          turns := st.turns ++ [⟨st.currentTurn, st.currentActions⟩],
          totalTurnsCounter := st.totalTurnsCounter + 1,
          currentActions := [],
          currentTurn := n }
    else st

/-- The Switch action recorded for a switch event line. -/
def switchActionOf (f : List String) : Action :=
  ⟨playerFromSlot (f.getD 1 ""), "switch", none, speciesOf (f.getD 2 "")⟩

/-- Switch event: records the action (buffered pre-turn-1 when no turn is
open), bumps the switch counter and the incoming combatant's health. -/
def handleSwitch (st : ParseState) (f : List String) : ParseState :=
  { st with
    currentActions := st.currentActions ++ [switchActionOf f],
    switchesCount := st.switchesCount + 1,
    hp :=
      match parseHP (f.getD 3 "") with
      | some q => setHP st.hp (slotKey (f.getD 1 "")) q
      | none => st.hp }

/-- Move event: records a Move action and updates the move-usage tally. -/
def handleMove (st : ParseState) (f : List String) : ParseState :=
  { st with
    currentActions :=
      st.currentActions ++
        [⟨playerFromSlot (f.getD 1 ""), "move", some ⟨toID (f.getD 2 ""), f.getD 2 ""⟩, ""⟩],
    moveFrequency := bumpFreq st.moveFrequency (toID (f.getD 2 "")) }

/-- Damage modifier line: the delta is attributed to the player whose
combatant's health changed (damage taken) and mirrored as damage dealt
for the opponent. -/
def handleDamage (st : ParseState) (f : List String) : ParseState :=
  match parseHP (f.getD 2 "") with
  | none => st
  | some newHp =>
    match (slotKey (f.getD 1 "")).data with
    | 'p' :: '1' :: _ =>
      { st with
        hp := setHP st.hp (slotKey (f.getD 1 "")) newHp,
        p1DamageTaken :=
          st.p1DamageTaken + (lookupHP st.hp (slotKey (f.getD 1 "")) - newHp),
        p2DamageDealt :=
          st.p2DamageDealt + (lookupHP st.hp (slotKey (f.getD 1 "")) - newHp) }
    | 'p' :: '2' :: _ =>
      { st with
        hp := setHP st.hp (slotKey (f.getD 1 "")) newHp,
        p2DamageTaken :=
          st.p2DamageTaken + (lookupHP st.hp (slotKey (f.getD 1 "")) - newHp),
        p1DamageDealt :=
          st.p1DamageDealt + (lookupHP st.hp (slotKey (f.getD 1 "")) - newHp) }
    | _ => { st with hp := setHP st.hp (slotKey (f.getD 1 "")) newHp }

/-- Heal modifier line: the delta is attributed to the player whose
combatant's health changed. -/
def handleHeal (st : ParseState) (f : List String) : ParseState :=
  match parseHP (f.getD 2 "") with
  | none => st
  | some newHp =>
    match (slotKey (f.getD 1 "")).data with
    | 'p' :: '1' :: _ =>
      { st with
        hp := setHP st.hp (slotKey (f.getD 1 "")) newHp,
        p1HealingDone :=
          st.p1HealingDone + (newHp - lookupHP st.hp (slotKey (f.getD 1 ""))) }
    | 'p' :: '2' :: _ =>
      { st with
        hp := setHP st.hp (slotKey (f.getD 1 "")) newHp,
        p2HealingDone :=
          st.p2HealingDone + (newHp - lookupHP st.hp (slotKey (f.getD 1 ""))) }
    | _ => { st with hp := setHP st.hp (slotKey (f.getD 1 "")) newHp }

/-- Faint event: increments the losing player's loss count and emits a
KO key moment at high significance tagged with the current turn. -/
def handleFaint (st : ParseState) (f : List String) : ParseState :=
  { st with
    currentActions :=
      st.currentActions ++ [⟨playerFromSlot (f.getD 1 ""), "faint", none, ""⟩],
    keyMoments :=
      st.keyMoments ++ [⟨st.currentTurn, "KO", f.getD 1 "" ++ " fainted", "high"⟩],
    p1Losses :=
      if playerFromSlot (f.getD 1 "") = "player1" then st.p1Losses + 1 else st.p1Losses,
    p2Losses :=
      if playerFromSlot (f.getD 1 "") = "player2" then st.p2Losses + 1 else st.p2Losses }

/-- Win marker: records the winning slot (empty when the name matches
neither bound player name), closes the open turn and reaches the
terminal state. -/
def handleWin (st : ParseState) (f : List String) : ParseState :=
  { closeTurn st with
    winner :=
      if f.getD 1 "" ≠ "" ∧ f.getD 1 "" = st.p1Name then "player1"
      else if f.getD 1 "" ≠ "" ∧ f.getD 1 "" = st.p2Name then "player2"
      else "",
    done := true }

/-- Unrecognized message types are recorded as an Other-variant action
inside an open turn, and silently ignored otherwise. -/
def handleUnknown (st : ParseState) (f : List String) : ParseState :=
  if st.currentTurn ≠ 0 then
    { st with currentActions :=
        st.currentActions ++ [⟨playerFromSlot (f.getD 1 ""), "other", none, ""⟩] }
  else st

/-- Dispatches one tokenized line on its message-type field. -/
def stepLine (st : ParseState) (f : List String) : ParseState :=
  match f.getD 0 "" with
  | "player" => handlePlayer st f
  | "j" => handleJoin st f
  | "tier" => { st with format := f.getD 1 "" }
  | "start" => st
  | "turn" => handleTurn st f
  | "switch" => handleSwitch st f
  | "move" => handleMove st f
  | "-supereffective" => { st with superEffectiveMoves := st.superEffectiveMoves + 1 }
  | "-resisted" => { st with notVeryEffectiveMoves := st.notVeryEffectiveMoves + 1 }
  | "-crit" => { st with criticalHits := st.criticalHits + 1 }
  | "-damage" => handleDamage st f
  | "-heal" => handleHeal st f
  | "faint" => handleFaint st f
  | "upkeep" => st
  | "win" => handleWin st f
  | _ => handleUnknown st f

/-- One dispatch step; lines after the terminal state are ignored. -/
def step (st : ParseState) (f : List String) : ParseState :=
  if st.done then st else stepLine st f

/-- Runs the dispatcher over a tokenized line sequence. -/
def runLog (ls : List (List String)) (st : ParseState) : ParseState :=
  ls.foldl step st

/-! ## Summary assembler

Modelled from the spec: section 4.6.  Called once at end of input; closes
the open turn, computes the two derived averages from the final totals
(substituting 0 when the turn count is 0) and never fails. -/

def assemble (uuid : String) (st0 : ParseState) : BattleSummary :=
  let st := closeTurn st0
  { ID := uuid,
    Format := st.format,
    Player1 := ⟨st.p1Name, st.p1Losses⟩,
    Player2 := ⟨st.p2Name, st.p2Losses⟩,
    Winner := st.winner,
    Turns := st.turns,
    Stats :=
      { TotalTurns := st.totalTurnsCounter,
        MoveFrequency := st.moveFrequency,
        SwitchesCount := st.switchesCount,
        SuperEffectiveMoves := st.superEffectiveMoves,
        NotVeryEffectiveMoves := st.notVeryEffectiveMoves,
        CriticalHits := st.criticalHits,
        Player1DamageDealt := st.p1DamageDealt,
        Player1DamageTaken := st.p1DamageTaken,
        Player1HealingDone := st.p1HealingDone,
        Player2DamageDealt := st.p2DamageDealt,
        Player2DamageTaken := st.p2DamageTaken,
        Player2HealingDone := st.p2HealingDone,
        AvgDamagePerTurn :=
          if st.totalTurnsCounter = 0 then 0
          else (st.p1DamageTaken + st.p2DamageTaken) / (st.totalTurnsCounter : ℚ),
        AvgHealPerTurn :=
          if st.totalTurnsCounter = 0 then 0
          else (st.p1HealingDone + st.p2HealingDone) / (st.totalTurnsCounter : ℚ) },
    KeyMoments := st.keyMoments }

/-- Modelled from the spec: `ParseShowdownLog` of the absent `parser.go`.
The unique identifier is generated per invocation by an effectful UUID
source; that source is threaded explicitly as the `uuid` argument.  The
error component of the Go return pair is always nil for in-memory input. -/
def ParseShowdownLog (uuid : String) (log : String) : BattleSummary × Option String :=
  (assemble uuid (runLog (tokenize log) initState), none)

/-! ## TCG Live analyze handler

Embedded from `backend/internal/httpapi/tcglive_handlers.go`.  The JSON
decode of the request body is represented by an `Option`: `none` is a
body that fails to decode, `some req` a decoded request. -/

/-- Request body for analyzing a TCG Live game. -/
structure AnalyzeTCGLiveRequest where
  GameExport : String
  IsPrivate : Bool
  deriving DecidableEq, Repr

/-- Structured error payload with a machine-readable code. -/
structure ErrorResponse where
  Error : String
  Code : String
  deriving DecidableEq, Repr

/-- `handleAnalyzeTCGLive`: HTTP status and error payload written for a
request body.  A body that fails to decode or decodes with an empty
`gameExport` is rejected with 400; everything else receives 501. -/
def handleAnalyzeTCGLive (body : Option AnalyzeTCGLiveRequest) : Nat × ErrorResponse :=
  match body with
  | none => (400, ⟨"Invalid request body", "INVALID_REQUEST"⟩)
  | some req =>
    if req.GameExport = "" then (400, ⟨"gameExport is required", "INVALID_REQUEST"⟩)
    else (501, ⟨"TCG Live analysis is planned for a future release", "NOT_IMPLEMENTED"⟩)

/-- Invariant of the turn/action assembler: closed turns are numbered
contiguously from 1 and the open turn, if any, carries the next number. -/
def turnInv (st : ParseState) : Prop :=
  st.turns.map (fun t => t.TurnNumber) = List.range' 1 st.turns.length ∧
  (st.done = false →
    (st.currentTurn = 0 → st.turns = []) ∧
    (st.currentTurn ≠ 0 → st.currentTurn = st.turns.length + 1)) ∧
  (st.done = true → st.currentTurn = 0)


/-- One step of an independent scan counting move-event lines carrying a
given display name; mirrors the parser's terminal win marker. -/
def moveCountStep (name : String) (p : Bool × Nat) (f : List String) : Bool × Nat :=
  if p.1 then p
  else
    match f.getD 0 "" with
    | "move" => if f.getD 2 "" = name then (p.1, p.2 + 1) else p
    | "win" => (true, p.2)
    | _ => p

/-- The number of move-event lines of the log whose move display name is
`name` (counted up to the terminal win marker, like the dispatcher). -/
def countMovesNamed (name : String) (s : String) : Nat :=
  ((tokenize s).foldl (moveCountStep name) (false, 0)).2


/-- Relation between the dispatcher state and the counting scan. -/
def inv7 (name : String) (st : ParseState) (p : Bool × Nat) : Prop :=
  st.done = p.1 ∧ lookupFreq st.moveFrequency (toID name) = p.2


/-! ## Faint events (claim C4) -/

/-- State of the independent faint-event scan: current turn (mirroring
only the turn state machine of spec 4.3), collected events, and the
terminal flag set by the win marker. -/
structure FaintScan where
  cur : Nat
  evs : List (String × Nat)
  done : Bool
  deriving DecidableEq, Repr

/-- One step of the faint-event scan. -/
def faintStep (fs : FaintScan) (f : List String) : FaintScan :=
  if fs.done then fs
  else
    match f.getD 0 "" with
    | "turn" =>
      match natOfChars (f.getD 1 "").data with
      | none => fs
      | some n => if n = fs.cur + 1 then { fs with cur := n } else fs
    | "faint" => { fs with evs := fs.evs ++ [(playerFromSlot (f.getD 1 ""), fs.cur)] }
    | "win" => { fs with cur := 0, done := true }
    | _ => fs

/-- The faint events of a log: for each faint line (up to the terminal
win marker), the designator of the player whose combatant fainted and
the turn number current when the line is dispatched. -/
def faintEvents (s : String) : List (String × Nat) :=
  ((tokenize s).foldl faintStep ⟨0, [], false⟩).evs

/-- Relation between the dispatcher state and the faint-event scan. -/
def inv4 (st : ParseState) (fs : FaintScan) : Prop :=
  st.currentTurn = fs.cur ∧ st.done = fs.done ∧
  st.keyMoments.map (fun m => (m.MomentType, m.Significance, m.TurnNumber)) =
    fs.evs.map (fun e => ("KO", "high", e.2)) ∧
  st.p1Losses = (fs.evs.filter (fun e => e.1 = "player1")).length ∧
  st.p2Losses = (fs.evs.filter (fun e => e.1 = "player2")).length


/-- An action is buffered: either the first closed turn already holds it,
or no turn has closed yet and it sits in the current action buffer. -/
def buffered (a : Action) (st : ParseState) : Prop :=
  (∃ t1 r1, st.turns = t1 :: r1 ∧ a ∈ t1.Actions) ∨
  (st.turns = [] ∧ a ∈ st.currentActions)


/-! ## Theorems -/

/-- Claim C10: a TCG Live analyze request whose body fails to decode, or
decodes with an empty gameExport, is answered 400 with code
INVALID_REQUEST; every other request is answered 501 with code
NOT_IMPLEMENTED; no request is ever answered with a success status. -/
theorem claim_C10_tcglive_handler :
    ((handleAnalyzeTCGLive none).1 = 400 ∧
      (handleAnalyzeTCGLive none).2.Code = "INVALID_REQUEST") ∧
    (∀ req : AnalyzeTCGLiveRequest,
      (handleAnalyzeTCGLive (some req)).1 = (if req.GameExport = "" then 400 else 501) ∧
      (handleAnalyzeTCGLive (some req)).2.Code =
        (if req.GameExport = "" then "INVALID_REQUEST" else "NOT_IMPLEMENTED")) ∧
    (∀ body, (handleAnalyzeTCGLive body).1 = 400 ∨ (handleAnalyzeTCGLive body).1 = 501) := by
  refine ⟨⟨rfl, rfl⟩, fun req => ?_, fun body => ?_⟩
  · by_cases h : req.GameExport = "" <;> simp [handleAnalyzeTCGLive, h]
  · cases body with
    | none => exact Or.inl rfl
    | some req =>
      by_cases h : req.GameExport = "" <;> simp [handleAnalyzeTCGLive, h]

/-- Claim C5: parsing the same log under two distinct per-invocation
unique identifiers yields summaries whose identifiers differ while every
other field (and the error component) coincides. -/
theorem claim_C5_uuid_uniqueness (s u1 u2 : String) (h : u1 ≠ u2) :
    (ParseShowdownLog u1 s).1.ID ≠ (ParseShowdownLog u2 s).1.ID ∧
    (ParseShowdownLog u1 s).1.Format = (ParseShowdownLog u2 s).1.Format ∧
    (ParseShowdownLog u1 s).1.Player1 = (ParseShowdownLog u2 s).1.Player1 ∧
    (ParseShowdownLog u1 s).1.Player2 = (ParseShowdownLog u2 s).1.Player2 ∧
    (ParseShowdownLog u1 s).1.Winner = (ParseShowdownLog u2 s).1.Winner ∧
    (ParseShowdownLog u1 s).1.Turns = (ParseShowdownLog u2 s).1.Turns ∧
    (ParseShowdownLog u1 s).1.Stats = (ParseShowdownLog u2 s).1.Stats ∧
    (ParseShowdownLog u1 s).1.KeyMoments = (ParseShowdownLog u2 s).1.KeyMoments ∧
    (ParseShowdownLog u1 s).2 = (ParseShowdownLog u2 s).2 :=
  ⟨h, rfl, rfl, rfl, rfl, rfl, rfl, rfl, rfl⟩

/-- Witness for claim C5 at concrete distinct identifiers. -/
theorem claim_C5_uuid_uniqueness_witness :
    ("uuid-a" : String) ≠ "uuid-b" ∧
    (ParseShowdownLog "uuid-a" "").1.ID ≠ (ParseShowdownLog "uuid-b" "").1.ID :=
  ⟨by decide, (claim_C5_uuid_uniqueness "" "uuid-a" "uuid-b" (by decide)).1⟩

/-- Claim C8: the two derived averages of the returned Stats equal the
final damage-taken (resp. healing-done) totals divided by the total turn
count, and are exactly 0 when the total turn count is 0. -/
theorem claim_C8_derived_averages (u s : String) :
    (ParseShowdownLog u s).1.Stats.AvgDamagePerTurn =
      (if (ParseShowdownLog u s).1.Stats.TotalTurns = 0 then 0
       else ((ParseShowdownLog u s).1.Stats.Player1DamageTaken +
              (ParseShowdownLog u s).1.Stats.Player2DamageTaken) /
            ((ParseShowdownLog u s).1.Stats.TotalTurns : ℚ)) ∧
    (ParseShowdownLog u s).1.Stats.AvgHealPerTurn =
      (if (ParseShowdownLog u s).1.Stats.TotalTurns = 0 then 0
       else ((ParseShowdownLog u s).1.Stats.Player1HealingDone +
              (ParseShowdownLog u s).1.Stats.Player2HealingDone) /
            ((ParseShowdownLog u s).1.Stats.TotalTurns : ℚ)) :=
  ⟨rfl, rfl⟩

/-- Every line of a structureless input tokenizes to nothing. -/
theorem tokenize_eq_nil_of_no_delimiter (s : String)
    (h : ∀ l ∈ linesOf s, (trimChars l).headD ' ' ≠ '|') : tokenize s = [] := by
  unfold tokenize
  rw [List.filterMap_eq_nil_iff]
  intro l hl
  have hh := h l hl
  simp only [fieldsOfLine]
  split
  · rfl
  · rename_i heq
    rw [heq] at hh
    simp at hh
  · rfl

/-- Claim C1: Parse never returns an error for any input, and a
structureless input (no delimiter-prefixed lines, including the empty
string) yields a summary with zero turns, empty winner, empty player
names and zero-valued stats. -/
theorem claim_C1_structureless_input (u s : String)
    (h : ∀ l ∈ linesOf s, (trimChars l).headD ' ' ≠ '|') :
    (∀ s2 : String, (ParseShowdownLog u s2).2 = none) ∧
    (ParseShowdownLog u s).1.Turns = [] ∧
    (ParseShowdownLog u s).1.Winner = "" ∧
    (ParseShowdownLog u s).1.Player1 = ⟨"", 0⟩ ∧
    (ParseShowdownLog u s).1.Player2 = ⟨"", 0⟩ ∧
    (ParseShowdownLog u s).1.Stats = ⟨0, [], 0, 0, 0, 0, 0, 0, 0, 0, 0, 0, 0, 0⟩ := by
  have ht : tokenize s = [] := tokenize_eq_nil_of_no_delimiter s h
  have hps : ParseShowdownLog u s = (assemble u initState, none) := by
    unfold ParseShowdownLog runLog
    rw [ht]
    rfl
  refine ⟨fun s2 => rfl, ?_, ?_, ?_, ?_, ?_⟩ <;> rw [hps] <;> rfl

/-- Witness for claim C1 at a concrete structureless input. -/
theorem claim_C1_structureless_input_witness :
    (∀ l ∈ linesOf "no structure at all", (trimChars l).headD ' ' ≠ '|') ∧
    (ParseShowdownLog "uuid-1" "no structure at all").1.Turns = [] :=
  ⟨by decide, (claim_C1_structureless_input "uuid-1" "no structure at all" (by decide)).2.1⟩

/-- `closeTurn` preserves the turn-counter invariant. -/
theorem closeTurn_tt (st : ParseState) (h : st.totalTurnsCounter = st.turns.length) :
    (closeTurn st).totalTurnsCounter = (closeTurn st).turns.length := by
  unfold closeTurn
  split
  · exact h
  · simp [h]

/-- Each dispatch step preserves the turn-counter invariant. -/
theorem stepLine_tt (st : ParseState) (f : List String)
    (h : st.totalTurnsCounter = st.turns.length) :
    (stepLine st f).totalTurnsCounter = (stepLine st f).turns.length := by
  unfold stepLine handlePlayer handleJoin handleTurn handleSwitch handleMove
    handleDamage handleHeal handleFaint handleWin handleUnknown closeTurn
  repeat' split
  all_goals simp_all

/-- The whole dispatch run preserves the turn-counter invariant. -/
theorem runLog_tt (ls : List (List String)) (st : ParseState)
    (h : st.totalTurnsCounter = st.turns.length) :
    (runLog ls st).totalTurnsCounter = (runLog ls st).turns.length := by
  induction ls generalizing st with
  | nil => exact h
  | cons f ls ih =>
    refine ih (step st f) ?_
    unfold step
    split
    · exact h
    · exact stepLine_tt st f h

/-- Claim C2: for every input, the returned summary's total-turn
statistic equals the number of returned turns. -/
theorem claim_C2_total_turns (u s : String) :
    (ParseShowdownLog u s).1.Stats.TotalTurns = (ParseShowdownLog u s).1.Turns.length := by
  have h := runLog_tt (tokenize s) initState rfl
  unfold ParseShowdownLog assemble
  dsimp only
  exact closeTurn_tt _ h

theorem turnInv_initState : turnInv initState := by
  refine ⟨rfl, fun _ => ⟨fun _ => rfl, fun hc => absurd rfl hc⟩, fun hdt => ?_⟩
  cases hdt

theorem turnInv_handleTurn (st : ParseState) (f : List String)
    (hd : st.done = false) (h : turnInv st) : turnInv (handleTurn st f) := by
  obtain ⟨h1, h2, h3⟩ := h
  unfold handleTurn
  split
  · exact ⟨h1, h2, h3⟩
  · rename_i n heq
    split_ifs with hn hc
    · have ht0 : st.turns = [] := (h2 hd).1 hc
      refine ⟨h1, fun _ => ⟨fun hcur0 => ?_, fun _ => ?_⟩, fun hdt => ?_⟩
      · exfalso
        simp only at hcur0
        omega
      · simp only
        rw [ht0]
        simp [hn, hc]
      · rw [hd] at hdt
        cases hdt
    · have hcur := (h2 hd).2 hc
      refine ⟨?_, fun _ => ⟨fun hcur0 => ?_, fun _ => ?_⟩, fun hdt => ?_⟩
      · simp only [List.map_append, List.map_cons, List.map_nil, List.length_append,
          List.length_cons, List.length_nil, h1, hcur]
        simp [List.range'_concat, Nat.add_comm]
      · exfalso
        simp only at hcur0
        omega
      · simp only [List.length_append, List.length_cons, List.length_nil]
        omega
      · rw [hd] at hdt
        cases hdt
    · exact ⟨h1, h2, h3⟩

/-- After closing, no turn is open. -/
theorem closeTurn_currentTurn (st : ParseState) : (closeTurn st).currentTurn = 0 := by
  unfold closeTurn
  split_ifs with hc
  · exact hc
  · rfl

/-- The closed-turn numbering survives closing the open turn. -/
theorem turnInv_closeTurn_map (st : ParseState) (h : turnInv st) :
    (closeTurn st).turns.map (fun t => t.TurnNumber) =
      List.range' 1 (closeTurn st).turns.length := by
  obtain ⟨h1, h2, h3⟩ := h
  unfold closeTurn
  split_ifs with hc
  · exact h1
  · cases hdv : st.done with
    | true => exact absurd (h3 hdv) hc
    | false =>
      have hcur := (h2 hdv).2 hc
      simp only [List.map_append, List.map_cons, List.map_nil, List.length_append,
        List.length_cons, List.length_nil, h1, hcur]
      simp [List.range'_concat, Nat.add_comm]

theorem turnInv_handleWin (st : ParseState) (f : List String)
    (_hd : st.done = false) (h : turnInv st) : turnInv (handleWin st f) := by
  refine ⟨?_, fun hdf => ?_, fun _ => ?_⟩
  · show (closeTurn st).turns.map (fun t => t.TurnNumber) =
      List.range' 1 (closeTurn st).turns.length
    exact turnInv_closeTurn_map st h
  · exfalso
    simp [handleWin] at hdf
  · show (closeTurn st).currentTurn = 0
    exact closeTurn_currentTurn st

theorem turnInv_stepLine (st : ParseState) (f : List String)
    (hd : st.done = false) (h : turnInv st) : turnInv (stepLine st f) := by
  obtain ⟨h1, h2, h3⟩ := h
  unfold stepLine
  split
  all_goals try exact ⟨h1, h2, h3⟩
  · unfold handlePlayer
    split_ifs <;> exact ⟨h1, h2, h3⟩
  · unfold handleJoin
    split_ifs <;> exact ⟨h1, h2, h3⟩
  · exact turnInv_handleTurn st f hd ⟨h1, h2, h3⟩
  · unfold handleDamage
    repeat' split
    all_goals exact ⟨h1, h2, h3⟩
  · unfold handleHeal
    repeat' split
    all_goals exact ⟨h1, h2, h3⟩
  · exact turnInv_handleWin st f hd ⟨h1, h2, h3⟩
  · unfold handleUnknown
    split_ifs <;> exact ⟨h1, h2, h3⟩

theorem turnInv_step (st : ParseState) (f : List String) (h : turnInv st) :
    turnInv (step st f) := by
  unfold step
  split
  · exact h
  · rename_i hdn
    exact turnInv_stepLine st f (by simpa using hdn) h

theorem turnInv_runLog (ls : List (List String)) (st : ParseState) (h : turnInv st) :
    turnInv (runLog ls st) := by
  induction ls generalizing st with
  | nil => exact h
  | cons f ls ih => exact ih (step st f) (turnInv_step st f h)

/-- Claim C3: for every input, the turn numbers of the returned summary
are exactly 1, 2, 3, ...: strictly increasing from 1 with no gaps. -/
theorem claim_C3_contiguous_turns (u s : String) :
    (ParseShowdownLog u s).1.Turns.map (fun t => t.TurnNumber) =
      List.range' 1 (ParseShowdownLog u s).1.Turns.length := by
  unfold ParseShowdownLog assemble
  dsimp only
  exact turnInv_closeTurn_map _ (turnInv_runLog (tokenize s) initState turnInv_initState)

/-- No dispatch step overwrites an already-bound player-1 name. -/
theorem stepLine_p1Name (st : ParseState) (f : List String) (h : st.p1Name ≠ "") :
    (stepLine st f).p1Name = st.p1Name := by
  unfold stepLine handlePlayer handleJoin handleTurn handleSwitch handleMove
    handleDamage handleHeal handleFaint handleWin handleUnknown closeTurn
  repeat' split
  all_goals simp_all

/-- No dispatch step overwrites an already-bound player-2 name. -/
theorem stepLine_p2Name (st : ParseState) (f : List String) (h : st.p2Name ≠ "") :
    (stepLine st f).p2Name = st.p2Name := by
  unfold stepLine handlePlayer handleJoin handleTurn handleSwitch handleMove
    handleDamage handleHeal handleFaint handleWin handleUnknown closeTurn
  repeat' split
  all_goals simp_all

theorem runLog_p1Name (ls : List (List String)) (st : ParseState) (h : st.p1Name ≠ "") :
    (runLog ls st).p1Name = st.p1Name := by
  induction ls generalizing st with
  | nil => rfl
  | cons f ls ih =>
    have hstep : (step st f).p1Name = st.p1Name := by
      unfold step
      split
      · rfl
      · exact stepLine_p1Name st f h
    have := ih (step st f) (by rw [hstep]; exact h)
    rw [show runLog (f :: ls) st = runLog ls (step st f) from rfl, this, hstep]

theorem runLog_p2Name (ls : List (List String)) (st : ParseState) (h : st.p2Name ≠ "") :
    (runLog ls st).p2Name = st.p2Name := by
  induction ls generalizing st with
  | nil => rfl
  | cons f ls ih =>
    have hstep : (step st f).p2Name = st.p2Name := by
      unfold step
      split
      · rfl
      · exact stepLine_p2Name st f h
    have := ih (step st f) (by rw [hstep]; exact h)
    rw [show runLog (f :: ls) st = runLog ls (step st f) from rfl, this, hstep]

/-- Claim C9: the first writer for a player slot wins.  Once a slot's
name is bound it survives any further dispatched lines (duplicate
declarations included); an empty slot is bound by a join-announcement
line with its throwaway marker characters stripped, or by a formal
player-declaration line verbatim. -/
theorem claim_C9_first_writer_wins (ls : List (List String)) (st st2 : ParseState)
    (raw nm : String)
    (h1 : st.p1Name ≠ "") (h2 : st.p2Name ≠ "")
    (h3 : st2.p1Name = "") (h4 : stripMarkers raw ≠ "") (h5 : nm ≠ "") :
    (runLog ls st).p1Name = st.p1Name ∧
    (runLog ls st).p2Name = st.p2Name ∧
    (stepLine st2 ["j", raw]).p1Name = stripMarkers raw ∧
    (stepLine st2 ["player", "p1", nm]).p1Name = nm := by
  refine ⟨runLog_p1Name ls st h1, runLog_p2Name ls st h2, ?_, ?_⟩
  · have hj : stepLine st2 ["j", raw] = handleJoin st2 ["j", raw] := rfl
    rw [hj]
    unfold handleJoin
    simp [h3, h4]
  · have hp : stepLine st2 ["player", "p1", nm] = handlePlayer st2 ["player", "p1", nm] := rfl
    rw [hp]
    unfold handlePlayer
    simp [h3, h5]

/-- Witness for claim C9 at concrete states and lines. -/
theorem claim_C9_first_writer_wins_witness :
    (runLog [["player", "p1", "Eve"], ["j", "☆Eve"]]
        { initState with p1Name := "Alice", p2Name := "Bob" }).p1Name = "Alice" ∧
    (stepLine initState ["j", "☆Carol"]).p1Name = "Carol" ∧
    (stepLine initState ["player", "p1", "Dave"]).p1Name = "Dave" := by
  have h := claim_C9_first_writer_wins [["player", "p1", "Eve"], ["j", "☆Eve"]]
    { initState with p1Name := "Alice", p2Name := "Bob" } initState "☆Carol" "Dave"
    (by decide) (by decide) (by decide) (by decide) (by decide)
  exact ⟨h.1, h.2.2.1, h.2.2.2⟩

/-! ## Frame lemmas for the final close -/

theorem closeTurn_moveFrequency (st : ParseState) :
    (closeTurn st).moveFrequency = st.moveFrequency := by
  unfold closeTurn
  split_ifs <;> rfl

theorem closeTurn_keyMoments (st : ParseState) :
    (closeTurn st).keyMoments = st.keyMoments := by
  unfold closeTurn
  split_ifs <;> rfl

theorem closeTurn_p1Losses (st : ParseState) : (closeTurn st).p1Losses = st.p1Losses := by
  unfold closeTurn
  split_ifs <;> rfl

theorem closeTurn_p2Losses (st : ParseState) : (closeTurn st).p2Losses = st.p2Losses := by
  unfold closeTurn
  split_ifs <;> rfl

/-! ## Move-frequency counting (claim C7) -/

theorem lookupFreq_bumpFreq (fr : List (String × Nat)) (k id : String) :
    lookupFreq (bumpFreq fr k) id =
      if k = id then lookupFreq fr id + 1 else lookupFreq fr id := by
  induction fr with
  | nil =>
    unfold bumpFreq lookupFreq
    split_ifs <;> simp_all [lookupFreq]
  | cons kv rest ih =>
    obtain ⟨k2, v2⟩ := kv
    unfold bumpFreq
    by_cases hk : k2 = k
    · subst hk
      unfold lookupFreq
      split_ifs <;> simp_all
    · unfold lookupFreq
      by_cases hid : k2 = id
      · subst hid
        have hne : ¬k = k2 := fun hEq => hk hEq.symm
        simp [hk, hne]
      · simp [hk, hid, ih]

theorem stepLine_eq_move (st : ParseState) (f : List String)
    (h : f.getD 0 "" = "move") : stepLine st f = handleMove st f := by
  unfold stepLine
  rw [h]
  rfl

theorem stepLine_eq_win (st : ParseState) (f : List String)
    (h : f.getD 0 "" = "win") : stepLine st f = handleWin st f := by
  unfold stepLine
  rw [h]
  rfl

theorem stepLine_eq_switch (st : ParseState) (f : List String)
    (h : f.getD 0 "" = "switch") : stepLine st f = handleSwitch st f := by
  unfold stepLine
  rw [h]
  rfl

theorem stepLine_eq_turn (st : ParseState) (f : List String)
    (h : f.getD 0 "" = "turn") : stepLine st f = handleTurn st f := by
  unfold stepLine
  rw [h]
  rfl

theorem stepLine_eq_faint (st : ParseState) (f : List String)
    (h : f.getD 0 "" = "faint") : stepLine st f = handleFaint st f := by
  unfold stepLine
  rw [h]
  rfl

/-- Lines other than move events and the win marker leave the move tally
and termination flag unchanged. -/
theorem stepLine_freq_frame (st : ParseState) (f : List String)
    (hm : ¬f.getD 0 "" = "move") (hw : ¬f.getD 0 "" = "win") :
    (stepLine st f).moveFrequency = st.moveFrequency ∧ (stepLine st f).done = st.done := by
  unfold stepLine handlePlayer handleJoin handleTurn handleSwitch
    handleDamage handleHeal handleFaint handleUnknown handleWin closeTurn
  repeat' split
  all_goals simp_all

theorem inv7_step (name : String) (st : ParseState) (p : Bool × Nat) (f : List String)
    (hf : f.getD 0 "" = "move" → toID (f.getD 2 "") = toID name → f.getD 2 "" = name)
    (h : inv7 name st p) : inv7 name (step st f) (moveCountStep name p f) := by
  obtain ⟨h1, h2⟩ := h
  unfold step moveCountStep
  rw [h1]
  by_cases hp : p.1 = true
  · rw [if_pos hp, if_pos hp]
    exact ⟨h1, h2⟩
  · rw [if_neg hp, if_neg hp]
    split
    · -- move event
      rename_i heq
      rw [stepLine_eq_move st f heq]
      refine ⟨?_, ?_⟩
      · show st.done = (if f.getD 2 "" = name then (p.1, p.2 + 1) else p).1
        split_ifs <;> exact h1
      · show lookupFreq (bumpFreq st.moveFrequency (toID (f.getD 2 ""))) (toID name) =
          (if f.getD 2 "" = name then (p.1, p.2 + 1) else p).2
        rw [lookupFreq_bumpFreq]
        by_cases h5 : f.getD 2 "" = name
        · rw [if_pos (show toID (f.getD 2 "") = toID name by rw [h5]), if_pos h5, h2]
        · rw [if_neg (show ¬toID (f.getD 2 "") = toID name from
            fun hEq => h5 (hf heq hEq)), if_neg h5]
          exact h2
    · -- win marker
      rename_i heq
      rw [stepLine_eq_win st f heq]
      refine ⟨rfl, ?_⟩
      show lookupFreq (closeTurn st).moveFrequency (toID name) = p.2
      rw [closeTurn_moveFrequency]
      exact h2
    · -- everything else
      rename_i hm hw
      obtain ⟨hfr, hdn⟩ := stepLine_freq_frame st f hm hw
      exact ⟨by rw [hdn]; exact h1, by rw [hfr]; exact h2⟩

theorem inv7_runLog (name : String) (ls : List (List String)) (st : ParseState)
    (p : Bool × Nat)
    (hf : ∀ f ∈ ls, f.getD 0 "" = "move" → toID (f.getD 2 "") = toID name → f.getD 2 "" = name)
    (h : inv7 name st p) :
    inv7 name (runLog ls st) (ls.foldl (moveCountStep name) p) := by
  induction ls generalizing st p with
  | nil => exact h
  | cons f ls ih =>
    exact ih (step st f) (moveCountStep name p f)
      (fun g hg => hf g (List.mem_cons_of_mem f hg))
      (inv7_step name st p f (hf f (List.mem_cons_self f ls)) h)

/-- Claim C7: a log containing exactly N move-event lines with display
name `name` (and no other move line colliding with its derived
identifier) yields `Stats.MoveFrequency[toID name] = N`. -/
theorem claim_C7_move_frequency (u s name : String) (N : Nat)
    (hN : countMovesNamed name s = N)
    (hf : ∀ f ∈ tokenize s,
      f.getD 0 "" = "move" → toID (f.getD 2 "") = toID name → f.getD 2 "" = name) :
    lookupFreq (ParseShowdownLog u s).1.Stats.MoveFrequency (toID name) = N := by
  have h := inv7_runLog name (tokenize s) initState (false, 0) hf ⟨rfl, rfl⟩
  unfold ParseShowdownLog assemble
  dsimp only
  rw [closeTurn_moveFrequency]
  rw [h.2]
  exact hN

/-- Witness for claim C7 on a two-move log. -/
theorem claim_C7_move_frequency_witness :
    countMovesNamed "Thunder Wave" "|turn|1\n|move|p1a: A|Thunder Wave|p2a: B\n|move|p2a: B|Thunder Wave|p1a: A" = 2 ∧
    lookupFreq (ParseShowdownLog "u"
        "|turn|1\n|move|p1a: A|Thunder Wave|p2a: B\n|move|p2a: B|Thunder Wave|p1a: A").1.Stats.MoveFrequency
      (toID "Thunder Wave") = 2 :=
  ⟨by decide,
   claim_C7_move_frequency "u"
     "|turn|1\n|move|p1a: A|Thunder Wave|p2a: B\n|move|p2a: B|Thunder Wave|p1a: A"
     "Thunder Wave" 2 (by decide) (by decide)⟩

/-- Lines other than turn boundaries, faint events and the win marker
leave the open-turn number, key moments, loss counters and termination
flag unchanged. -/
theorem stepLine_C4_frame (st : ParseState) (f : List String)
    (hT : ¬f.getD 0 "" = "turn") (hF : ¬f.getD 0 "" = "faint")
    (hW : ¬f.getD 0 "" = "win") :
    (stepLine st f).currentTurn = st.currentTurn ∧
    (stepLine st f).keyMoments = st.keyMoments ∧
    (stepLine st f).p1Losses = st.p1Losses ∧
    (stepLine st f).p2Losses = st.p2Losses ∧
    (stepLine st f).done = st.done := by
  unfold stepLine handlePlayer handleJoin handleTurn handleSwitch handleMove
    handleDamage handleHeal handleFaint handleUnknown handleWin closeTurn
  repeat' split
  all_goals simp_all

theorem inv4_step (st : ParseState) (fs : FaintScan) (f : List String)
    (h : inv4 st fs) : inv4 (step st f) (faintStep fs f) := by
  obtain ⟨h1, h2, h3, h4, h5⟩ := h
  unfold step faintStep
  rw [h2]
  by_cases hd : fs.done = true
  · rw [if_pos hd, if_pos hd]
    exact ⟨h1, h2, h3, h4, h5⟩
  · rw [if_neg hd, if_neg hd]
    split
    · -- turn boundary
      rename_i heq
      rw [stepLine_eq_turn st f heq]
      unfold handleTurn
      rcases hnat : natOfChars (f.getD 1 "").data with _ | n
      · exact ⟨h1, h2, h3, h4, h5⟩
      · rw [h1]
        dsimp only
        by_cases hcond : n = fs.cur + 1
        · rw [if_pos hcond, if_pos hcond]
          by_cases hc0 : fs.cur = 0
          · rw [if_pos hc0]
            exact ⟨rfl, h2, h3, h4, h5⟩
          · rw [if_neg hc0]
            exact ⟨rfl, h2, h3, h4, h5⟩
        · rw [if_neg hcond, if_neg hcond]
          exact ⟨h1, h2, h3, h4, h5⟩
    · -- faint event
      rename_i heq
      rw [stepLine_eq_faint st f heq]
      refine ⟨h1, h2, ?_, ?_, ?_⟩
      · show (st.keyMoments ++
            [(⟨st.currentTurn, "KO", f.getD 1 "" ++ " fainted", "high"⟩ : KeyMoment)]).map
            (fun m : KeyMoment => (m.MomentType, m.Significance, m.TurnNumber)) =
          (fs.evs ++ [(playerFromSlot (f.getD 1 ""), fs.cur)]).map
            (fun e : String × Nat => ("KO", "high", e.2))
        rw [List.map_append, List.map_append, h3, h1]
        rfl
      · show (if playerFromSlot (f.getD 1 "") = "player1"
            then st.p1Losses + 1 else st.p1Losses) =
          ((fs.evs ++ [(playerFromSlot (f.getD 1 ""), fs.cur)]).filter
            (fun e => e.1 = "player1")).length
        rw [List.filter_append, h4]
        generalize playerFromSlot (f.getD 1 "") = q
        by_cases hq : q = "player1"
        · rw [if_pos hq, hq]
          simp
        · rw [if_neg hq]
          simp [hq]
      · show (if playerFromSlot (f.getD 1 "") = "player2"
            then st.p2Losses + 1 else st.p2Losses) =
          ((fs.evs ++ [(playerFromSlot (f.getD 1 ""), fs.cur)]).filter
            (fun e => e.1 = "player2")).length
        rw [List.filter_append, h5]
        generalize playerFromSlot (f.getD 1 "") = q
        by_cases hq : q = "player2"
        · rw [if_pos hq, hq]
          simp
        · rw [if_neg hq]
          simp [hq]
    · -- win marker
      rename_i heq
      rw [stepLine_eq_win st f heq]
      refine ⟨closeTurn_currentTurn st, rfl, ?_, ?_, ?_⟩
      · show (closeTurn st).keyMoments.map
            (fun m => (m.MomentType, m.Significance, m.TurnNumber)) = _
        rw [closeTurn_keyMoments]
        exact h3
      · show (closeTurn st).p1Losses = _
        rw [closeTurn_p1Losses]
        exact h4
      · show (closeTurn st).p2Losses = _
        rw [closeTurn_p2Losses]
        exact h5
    · -- everything else
      rename_i hT hF hW
      obtain ⟨f1, f2, f3, f4, f5⟩ := stepLine_C4_frame st f hT hF hW
      exact ⟨by rw [f1]; exact h1, by rw [f5]; exact h2, by rw [f2]; exact h3,
        by rw [f3]; exact h4, by rw [f4]; exact h5⟩

theorem inv4_runLog (ls : List (List String)) (st : ParseState) (fs : FaintScan)
    (h : inv4 st fs) : inv4 (runLog ls st) (ls.foldl faintStep fs) := by
  induction ls generalizing st fs with
  | nil => exact h
  | cons f ls ih => exact ih (step st f) (faintStep fs f) (inv4_step st fs f h)

/-- Claim C4: a log with exactly one faint event yields at least one
KeyMoment of type KO at high significance tagged with the turn on which
the faint occurred, and increments the losing player's loss count by
exactly 1 (the other player's stays 0). -/
theorem claim_C4_faint_ko (u s pl : String) (t : Nat)
    (hev : faintEvents s = [(pl, t)])
    (hpl : pl = "player1" ∨ pl = "player2") :
    (∃ m ∈ (ParseShowdownLog u s).1.KeyMoments,
        m.MomentType = "KO" ∧ m.Significance = "high" ∧ m.TurnNumber = t) ∧
    (pl = "player1" →
      (ParseShowdownLog u s).1.Player1.Losses = 1 ∧
      (ParseShowdownLog u s).1.Player2.Losses = 0) ∧
    (pl = "player2" →
      (ParseShowdownLog u s).1.Player2.Losses = 1 ∧
      (ParseShowdownLog u s).1.Player1.Losses = 0) := by
  obtain ⟨h1, h2, h3, h4, h5⟩ :=
    inv4_runLog (tokenize s) initState ⟨0, [], false⟩ ⟨rfl, rfl, rfl, rfl, rfl⟩
  rw [show ((tokenize s).foldl faintStep ⟨0, [], false⟩).evs = [(pl, t)] from hev]
    at h3 h4 h5
  have hKM : (ParseShowdownLog u s).1.KeyMoments =
      (runLog (tokenize s) initState).keyMoments := by
    unfold ParseShowdownLog assemble
    dsimp only
    rw [closeTurn_keyMoments]
  have hL1 : (ParseShowdownLog u s).1.Player1.Losses =
      (runLog (tokenize s) initState).p1Losses := by
    unfold ParseShowdownLog assemble
    dsimp only
    rw [closeTurn_p1Losses]
  have hL2 : (ParseShowdownLog u s).1.Player2.Losses =
      (runLog (tokenize s) initState).p2Losses := by
    unfold ParseShowdownLog assemble
    dsimp only
    rw [closeTurn_p2Losses]
  refine ⟨?_, ?_, ?_⟩
  · rw [hKM]
    rcases hKMs : (runLog (tokenize s) initState).keyMoments with _ | ⟨m, rest⟩
    · rw [hKMs] at h3
      simp at h3
    · rw [hKMs] at h3
      simp only [List.map_cons, List.map_nil] at h3
      have hm : (m.MomentType, m.Significance, m.TurnNumber) = ("KO", "high", t) := by
        have hcg := congrArg
          (fun l : List (String × String × Nat) => l.headD ("", "", 0)) h3
        simpa using hcg
      have hm1 : m.MomentType = "KO" := congrArg Prod.fst hm
      have hm2 : m.Significance = "high" := congrArg (fun q => q.2.1) hm
      have hm3 : m.TurnNumber = t := congrArg (fun q => q.2.2) hm
      exact ⟨m, List.mem_cons_self m rest, hm1, hm2, hm3⟩
  · intro hp1
    subst hp1
    refine ⟨?_, ?_⟩
    · rw [hL1, h4]
      simp
    · rw [hL2, h5]
      simp
  · intro hp2
    subst hp2
    refine ⟨?_, ?_⟩
    · rw [hL2, h5]
      simp
    · rw [hL1, h4]
      simp

/-- Witness for claim C4 on a one-faint log. -/
theorem claim_C4_faint_ko_witness :
    faintEvents "|turn|1\n|faint|p2a: Blastoise" = [("player2", 1)] ∧
    (ParseShowdownLog "u" "|turn|1\n|faint|p2a: Blastoise").1.Player2.Losses = 1 ∧
    (∃ m ∈ (ParseShowdownLog "u" "|turn|1\n|faint|p2a: Blastoise").1.KeyMoments,
      m.MomentType = "KO" ∧ m.Significance = "high" ∧ m.TurnNumber = 1) := by
  have h := claim_C4_faint_ko "u" "|turn|1\n|faint|p2a: Blastoise" "player2" 1
    (by decide) (Or.inr rfl)
  exact ⟨by decide, (h.2.2 rfl).1, h.1⟩

/-! ## The pre-turn-1 action buffer (claim C6) -/

theorem buffered_closeTurn (a : Action) (st : ParseState) (h : buffered a st) :
    buffered a (closeTurn st) := by
  unfold closeTurn
  split_ifs with hc
  · exact h
  · rcases h with ⟨t1, r1, hT, hA⟩ | ⟨hT, hA⟩
    · exact Or.inl ⟨t1, r1 ++ [⟨st.currentTurn, st.currentActions⟩], by rw [hT]; rfl, hA⟩
    · exact Or.inl ⟨⟨st.currentTurn, st.currentActions⟩, [], by rw [hT]; rfl, hA⟩

/-- No dispatch step loses a buffered action. -/
theorem buffered_stepLine (a : Action) (st : ParseState) (f : List String)
    (h : buffered a st) : buffered a (stepLine st f) := by
  unfold stepLine
  split
  · unfold handlePlayer
    split_ifs <;> exact h
  · unfold handleJoin
    split_ifs <;> exact h
  · exact h
  · exact h
  · unfold handleTurn
    split
    · exact h
    · split_ifs with hn hc
      · exact h
      · rcases h with ⟨t1, r1, hT, hA⟩ | ⟨hT, hA⟩
        · exact Or.inl ⟨t1, r1 ++ [⟨st.currentTurn, st.currentActions⟩], by rw [hT]; rfl, hA⟩
        · exact Or.inl ⟨⟨st.currentTurn, st.currentActions⟩, [], by rw [hT]; rfl, hA⟩
      · exact h
  · rcases h with ⟨t1, r1, hT, hA⟩ | ⟨hT, hA⟩
    · exact Or.inl ⟨t1, r1, hT, hA⟩
    · exact Or.inr ⟨hT, List.mem_append_left _ hA⟩
  · rcases h with ⟨t1, r1, hT, hA⟩ | ⟨hT, hA⟩
    · exact Or.inl ⟨t1, r1, hT, hA⟩
    · exact Or.inr ⟨hT, List.mem_append_left _ hA⟩
  · exact h
  · exact h
  · exact h
  · unfold handleDamage
    repeat' split
    all_goals exact h
  · unfold handleHeal
    repeat' split
    all_goals exact h
  · rcases h with ⟨t1, r1, hT, hA⟩ | ⟨hT, hA⟩
    · exact Or.inl ⟨t1, r1, hT, hA⟩
    · exact Or.inr ⟨hT, List.mem_append_left _ hA⟩
  · exact h
  · exact buffered_closeTurn a st h
  · unfold handleUnknown
    split_ifs with hc
    · rcases h with ⟨t1, r1, hT, hA⟩ | ⟨hT, hA⟩
      · exact Or.inl ⟨t1, r1, hT, hA⟩
      · exact Or.inr ⟨hT, List.mem_append_left _ hA⟩
    · exact h

theorem buffered_runLog (a : Action) (ls : List (List String)) (st : ParseState)
    (h : buffered a st) : buffered a (runLog ls st) := by
  induction ls generalizing st with
  | nil => exact h
  | cons f ls ih =>
    refine ih (step st f) ?_
    unfold step
    split
    · exact h
    · exact buffered_stepLine a st f h

/-- Once the terminal state is reached, later lines change nothing. -/
theorem runLog_done (ls : List (List String)) (st : ParseState) (h : st.done = true) :
    runLog ls st = st := by
  induction ls with
  | nil => rfl
  | cons f ls ih =>
    show runLog ls (step st f) = st
    rw [show step st f = st from by unfold step; rw [if_pos h]]
    exact ih

/-- While no turn-boundary line has been dispatched, no turn is open and
no turn has been closed. -/
theorem stepLine_noTurnFrame (st : ParseState) (f : List String)
    (hm : ¬f.getD 0 "" = "turn") (hc : st.currentTurn = 0) :
    (stepLine st f).currentTurn = 0 ∧ (stepLine st f).turns = st.turns := by
  unfold stepLine handlePlayer handleJoin handleSwitch handleMove handleDamage
    handleHeal handleFaint handleUnknown handleWin handleTurn closeTurn
  repeat' split
  all_goals simp_all

theorem runLog_noTurn (ls : List (List String)) (st : ParseState)
    (hT : ∀ l ∈ ls, ¬l.getD 0 "" = "turn") (hc : st.currentTurn = 0) :
    (runLog ls st).currentTurn = 0 ∧ (runLog ls st).turns = st.turns := by
  induction ls generalizing st with
  | nil => exact ⟨hc, rfl⟩
  | cons f ls ih =>
    have hstep : (step st f).currentTurn = 0 ∧ (step st f).turns = st.turns := by
      unfold step
      split
      · exact ⟨hc, rfl⟩
      · exact stepLine_noTurnFrame st f (hT f (List.mem_cons_self f ls)) hc
    obtain ⟨ha, hb⟩ := hstep
    obtain ⟨ha2, hb2⟩ := ih (step st f) (fun l hl => hT l (List.mem_cons_of_mem f hl)) ha
    exact ⟨ha2, hb2.trans hb⟩

/-- A buffered action lands in the first returned turn. -/
theorem buffered_assemble (a : Action) (u : String) (st : ParseState) (t : Turn)
    (rest : List Turn) (h : buffered a st)
    (hT : (assemble u st).Turns = t :: rest) : a ∈ t.Actions := by
  have hT2 : (closeTurn st).turns = t :: rest := hT
  unfold closeTurn at hT2
  rcases h with ⟨t1, r1, hTs, hA⟩ | ⟨hTs, hA⟩
  · split_ifs at hT2 with hc
    · rw [hTs] at hT2
      injection hT2 with hh _
      rw [← hh]
      exact hA
    · rw [hTs, List.cons_append] at hT2
      injection hT2 with hh _
      rw [← hh]
      exact hA
  · split_ifs at hT2 with hc
    · rw [hTs] at hT2
      simp at hT2
    · rw [hTs, List.nil_append] at hT2
      injection hT2 with hh _
      rw [← hh]
      exact hA

/-- Claim C6: a switch line dispatched before any turn-boundary line is
buffered and, once turn 1 opens, recorded as a Switch action inside the
first returned turn, which is numbered 1; the buffered action is not
lost. -/
theorem claim_C6_preturn_switch (u s : String) (ls1 ls2 : List (List String))
    (f : List String) (t : Turn) (rest : List Turn)
    (htok : tokenize s = ls1 ++ f :: ls2)
    (hpre : ∀ l ∈ ls1, ¬l.getD 0 "" = "turn")
    (hsw : f.getD 0 "" = "switch")
    (hT : (ParseShowdownLog u s).1.Turns = t :: rest) :
    switchActionOf f ∈ t.Actions ∧ (switchActionOf f).ActionType = "switch" ∧
    t.TurnNumber = 1 := by
  have hrun : runLog (tokenize s) initState =
      runLog ls2 (step (runLog ls1 initState) f) := by
    rw [htok]
    unfold runLog
    rw [List.foldl_append]
    rfl
  have hTassm : (assemble u (runLog (tokenize s) initState)).Turns = t :: rest := hT
  refine ⟨?_, rfl, ?_⟩
  · -- membership of the buffered switch action in the first turn
    obtain ⟨hc1, ht1⟩ := runLog_noTurn ls1 initState hpre rfl
    cases hdone : (runLog ls1 initState).done with
    | true =>
      exfalso
      have hfix : runLog (tokenize s) initState = runLog ls1 initState := by
        rw [hrun, show step (runLog ls1 initState) f = runLog ls1 initState from by
          unfold step; rw [if_pos hdone]]
        exact runLog_done ls2 _ hdone
      have hturns : (assemble u (runLog ls1 initState)).Turns = t :: rest := by
        rw [← hfix]
        exact hTassm
      have hclose : (closeTurn (runLog ls1 initState)).turns = t :: rest := hturns
      unfold closeTurn at hclose
      rw [if_pos hc1, ht1] at hclose
      exact absurd (show ([] : List Turn) = t :: rest from hclose) (by simp)
    | false =>
      have hstep : step (runLog ls1 initState) f =
          handleSwitch (runLog ls1 initState) f := by
        unfold step
        rw [if_neg (by rw [hdone]; exact Bool.false_ne_true)]
        exact stepLine_eq_switch _ f hsw
      have hbuf : buffered (switchActionOf f) (step (runLog ls1 initState) f) := by
        rw [hstep]
        refine Or.inr ⟨?_, ?_⟩
        · show (runLog ls1 initState).turns = []
          rw [ht1]
          rfl
        · show switchActionOf f ∈ (runLog ls1 initState).currentActions ++ [switchActionOf f]
          exact List.mem_append_right _ (List.mem_singleton_self _)
      have hbufE := buffered_runLog (switchActionOf f) ls2 _ hbuf
      rw [← hrun] at hbufE
      exact buffered_assemble (switchActionOf f) u _ t rest hbufE hTassm
  · -- the first returned turn is numbered 1
    have hmap : ((ParseShowdownLog u s).1.Turns).map (fun tt => tt.TurnNumber) =
        List.range' 1 ((ParseShowdownLog u s).1.Turns).length :=
      turnInv_closeTurn_map _ (turnInv_runLog (tokenize s) initState turnInv_initState)
    rw [hT] at hmap
    simp only [List.map_cons, List.length_cons] at hmap
    rw [List.range'_succ] at hmap
    have hcg := congrArg (fun l : List Nat => l.headD 0) hmap
    simpa using hcg

/-- Witness for claim C6 on a log whose switch line precedes turn 1. -/
theorem claim_C6_preturn_switch_witness :
    tokenize "|switch|p2a: Foo|Foo, L50|100/100\n|turn|1\n|win|X" =
      [] ++ ["switch", "p2a: Foo", "Foo, L50", "100/100"] :: [["turn", "1"], ["win", "X"]] ∧
    (ParseShowdownLog "u" "|switch|p2a: Foo|Foo, L50|100/100\n|turn|1\n|win|X").1.Turns =
      (⟨1, [⟨"player2", "switch", none, "Foo"⟩]⟩ : Turn) :: [] ∧
    switchActionOf ["switch", "p2a: Foo", "Foo, L50", "100/100"] ∈
      (⟨1, [⟨"player2", "switch", none, "Foo"⟩]⟩ : Turn).Actions := by
  refine ⟨by decide, by decide, ?_⟩
  exact (claim_C6_preturn_switch "u" "|switch|p2a: Foo|Foo, L50|100/100\n|turn|1\n|win|X"
    [] [["turn", "1"], ["win", "X"]] ["switch", "p2a: Foo", "Foo, L50", "100/100"]
    (⟨1, [⟨"player2", "switch", none, "Foo"⟩]⟩ : Turn) []
    (by decide) (by decide) (by decide) (by decide)).1

end Battleforge
